import Mathlib

/-!
# Verification of the booking coordination core (gdg-backend / CareConnect Hub)

Shallow embedding of the booking coordination core of the repository:

* `src/lib/conflicts.ts` — conflict detector (`checkBookingConflict`,
  `checkBookingConflictManual`) and waitlist manager (`addToWaitlist`,
  `processWaitlist`, `acceptWaitlistOffer`, `declineWaitlistOffer`,
  `expireOldOffers`);
* `src/app/api/bookings/route.ts` — booking admission (`POST /api/bookings`);
* `src/app/api/bookings/[id]/cancel/route.ts` — booking cancellation;
* `src/lib/matching.ts` — volunteer matcher (`calculateMatchScore`);
* `src/app/api/volunteer-assignments/[id]/complete/route.ts` — assignment
  completion and volunteer rolling-aggregate updates;
* `src/app/api/waitlist/[id]/accept/route.ts` — accept-offer route.

Conventions of the embedding:

* Timestamps are epoch milliseconds (`Int`), matching `Date.getTime()`.
  A JavaScript `Date` object is embedded as a record of its observers used by
  the code: `getTime()`, `getHours()` and the lowercase `en-US` weekday name
  from `toLocaleDateString`.  JavaScript `Date` comparison operators compare
  epoch milliseconds.
* Status strings are embedded as enumerations; numeric aggregates as `ℚ`.
* The Supabase record store is embedded as an explicit `DB` state record.
  Store writes (`update`/`insert`) become functional updates of that record.
  Two store-side objects are not present under `src/` and are modelled from
  the spec where noted: the `check_booking_conflict` and
  `get_next_waitlist_position` SQL functions, and the store's uniqueness
  constraints per (activity, participant).
* `JS Math.round` is `jsRound` (round half towards +∞).
* Fields of source rows never read by the modelled operations (titles,
  locations, free-text reasons, the alternative-suggestion payload of
  conflict results) are omitted; no claim mentions them.
-/

/-- JavaScript `Math.round`: rounds half-way cases towards +∞. -/
def jsRound (q : ℚ) : ℤ := ⌊q + 1 / 2⌋

/-- Embedding of a JavaScript `Date`: the three observers the core uses. -/
structure DateTime where
  /-- `getTime()` — epoch milliseconds. -/
  time : Int
  /-- `getHours()` — local hour 0–23. -/
  hour : Nat
  /-- `toLocaleDateString('en-US', \x7b weekday: 'long' \x7d).toLowerCase()`. -/
  weekday : String
deriving DecidableEq, Repr

/-- `bookings.status` strings. -/
inductive BStatus where
  | confirmed | cancelled | completed | no_show
deriving DecidableEq, Repr

/-- `waitlist_entries.status` strings. -/
inductive WStatus where
  | waiting | notified | accepted | declined | expired | cancelled
deriving DecidableEq, Repr

/-- Row of `activities` (fields read by the booking coordination core). -/
structure Activity where
  id : Nat
  start_datetime : DateTime
  end_datetime : DateTime
  capacity : Nat
  current_bookings : Nat
  is_cancelled : Bool
  tags : List String
deriving DecidableEq, Repr

/-- Row of `bookings`. -/
structure Booking where
  id : Nat
  activity_id : Nat
  participant_id : Nat
  registered_by : Nat
  status : BStatus
  cancelled_at : Option Int
deriving DecidableEq, Repr

/-- Row of `waitlist_entries`. -/
structure WaitlistEntry where
  id : Nat
  activity_id : Nat
  participant_id : Nat
  position : Nat
  status : WStatus
  notified_at : Option Int
  expires_at : Option Int
deriving DecidableEq, Repr

/-- Row of `participants` (fields read by the core). -/
structure Participant where
  id : Nat
  user_id : Nat
deriving DecidableEq, Repr

/-- The record store state visible to the booking coordination core.
`nextBookingId` / `nextWaitlistId` model the store's id generation for
inserted rows. -/
structure DB where
  activities : List Activity
  bookings : List Booking
  waitlist : List WaitlistEntry
  participants : List Participant
  nextBookingId : Nat
  nextWaitlistId : Nat
deriving DecidableEq, Repr

/-! ## Conflict Detector (`src/lib/conflicts.ts`) -/

/-- The half-open overlap test of `checkBookingConflictManual`
(`src/lib/conflicts.ts` line 85) and of the volunteer matcher
(`findVolunteersForActivity`): `newStart < existingEnd && newEnd > existingStart`.
JavaScript `newEnd > existingStart` is `existingStart < newEnd`. -/
def overlaps (newStart newEnd existStart existEnd : Int) : Bool :=
  decide (newStart < existEnd) && decide (existStart < newEnd)

/-- Result of a conflict check (`ConflictCheckResult`); the
`conflicting_activity` payload is embedded as the conflicting activity id,
and the alternative-suggestion list is omitted (never read by the claims nor
by the admission decision). -/
structure ConflictCheckResult where
  has_conflict : Bool
  conflicting_activity : Option Nat
deriving DecidableEq, Repr

/-- The loop of `checkBookingConflictManual`: scan the joined rows
(`booking.activity`, possibly null) in store order; skip null and excluded
activities; report the first overlapping window. -/
def firstConflict (rows : List (Option Activity)) (newStart newEnd : Int)
    (excludeActivityId : Option Nat) : Option Activity :=
  match rows with
  | [] => none
  | none :: rest => firstConflict rest newStart newEnd excludeActivityId
  | some a :: rest =>
    if excludeActivityId = some a.id then
      firstConflict rest newStart newEnd excludeActivityId
    else if overlaps newStart newEnd a.start_datetime.time a.end_datetime.time then
      some a
    else
      firstConflict rest newStart newEnd excludeActivityId

/-- `checkBookingConflictManual` (`src/lib/conflicts.ts` lines 53–108).
`bookingsData` is the store's response to the confirmed-bookings query, with
the joined activity of each row: `none` models a failed read (`!bookings`),
in which case the source returns `{ has_conflict: false }`. -/
def checkBookingConflictManual (bookingsData : Option (List (Option Activity)))
    (newStart newEnd : Int) (excludeActivityId : Option Nat) : ConflictCheckResult :=
  match bookingsData with
  | none => ⟨false, none⟩
  | some rows =>
    match firstConflict rows newStart newEnd excludeActivityId with
    | some a => ⟨true, some a.id⟩
    | none => ⟨false, none⟩

/-- Outcome of a store call that can fail (a Supabase `error` response). -/
inductive StoreResult (α : Type) where
  | ok (val : α)
  | err
deriving DecidableEq, Repr

/-- `checkBookingConflict` (`src/lib/conflicts.ts` lines 5–50): first try the
`check_booking_conflict` RPC; on a store error, fall back to the manual scan.
`rpcResult` is the RPC response (a list of conflicting activities) and
`manualData` the response to the fallback's own query. -/
def checkBookingConflictFn (rpcResult : StoreResult (List Activity))
    (manualData : Option (List (Option Activity)))
    (newStart newEnd : Int) (excludeActivityId : Option Nat) : ConflictCheckResult :=
  match rpcResult with
  | .err => checkBookingConflictManual manualData newStart newEnd excludeActivityId
  | .ok conflicts =>
    match conflicts with
    | c :: _ => ⟨true, some c.id⟩
    | [] => ⟨false, none⟩

/-- The joined rows behind the manual scan on a healthy store: the
participant's `confirmed` bookings joined to their activities. -/
def confirmedJoined (db : DB) (participantId : Nat) : List (Option Activity) :=
  (db.bookings.filter fun b =>
      decide (b.participant_id = participantId ∧ b.status = BStatus.confirmed)).map
    fun b => db.activities.find? fun a => a.id = b.activity_id

/-- Modelled from the spec: the store-side `check_booking_conflict` SQL
function is not under `src/` (only its RPC call site is).  Per §4.1 it
returns the activities of the participant's confirmed bookings whose windows
half-open-overlap the candidate window, excluding `excludeActivityId`. -/
def conflictRPC (db : DB) (participantId : Nat) (newStart newEnd : Int)
    (excludeActivityId : Option Nat) : List Activity :=
  ((confirmedJoined db participantId).filterMap id).filter fun a =>
    decide (¬ excludeActivityId = some a.id) &&
      overlaps newStart newEnd a.start_datetime.time a.end_datetime.time

/-- **C5.** The conflict predicate is symmetric and half-open: for all
windows, `A` conflicts with `B` iff `B` conflicts with `A`; windows that
merely touch at an endpoint (such as `[10:00,11:00)` and `[11:00,12:00)`)
never conflict; and the manual conflict check reports exactly this predicate
against an existing booking's window. -/
theorem conflict_predicate_symmetric_halfopen :
    (∀ aS aE bS bE : Int, overlaps aS aE bS bE = overlaps bS bE aS aE) ∧
    (∀ s m e : Int, overlaps s m m e = false) ∧
    (∀ s m e : Int, overlaps m e s m = false) ∧
    (overlaps 600 660 630 690 = true ∧ overlaps 630 690 600 660 = true) ∧
    (∀ (a : Activity) (cS cE : Int),
      (checkBookingConflictManual (some [some a]) cS cE none).has_conflict =
        overlaps cS cE a.start_datetime.time a.end_datetime.time) := by
  refine ⟨?_, ?_, ?_, by decide, ?_⟩
  · intro aS aE bS bE
    simp [overlaps, Bool.and_comm]
  · intro s m e
    simp [overlaps]
  · intro s m e
    simp [overlaps]
  · intro a cS cE
    simp only [checkBookingConflictManual, firstConflict]
    cases h : overlaps cS cE a.start_datetime.time a.end_datetime.time <;> simp [h]

/-- **C8 (counterexample).** An execution in which the store fails twice —
the `check_booking_conflict` RPC errors and the fallback's confirmed-bookings
read returns no data — reports `has_conflict = false`, refuting the claim
that a store-unavailable conflict check never reports "no conflict". -/
theorem storeFailure_reports_no_conflict :
    checkBookingConflictFn .err none 0 3600000 none =
      { has_conflict := false, conflicting_activity := none } := by
  rfl

/-- **C8 (amended).** When the record store's RPC fails, `checkBookingConflict`
does not propagate an infrastructure error: it falls back to the manual scan,
and when the manual scan's store read also fails (returns no data) the check
reports `has_conflict = false` (fail-open). -/
theorem checkConflict_storeFailure_falls_back_open :
    (∀ (manualData : Option (List (Option Activity))) (s e : Int) (ex : Option Nat),
      checkBookingConflictFn .err manualData s e ex =
        checkBookingConflictManual manualData s e ex) ∧
    (∀ (s e : Int) (ex : Option Nat),
      checkBookingConflictManual none s e ex =
        { has_conflict := false, conflicting_activity := none }) := by
  exact ⟨fun _ _ _ _ => rfl, fun _ _ _ => rfl⟩


/-! ## Volunteer Matcher (`src/lib/matching.ts`) -/

/-- A volunteer row (fields read by `calculateMatchScore`).  `availability`
is the JSON mapping from weekday name to a list of time-of-day buckets. -/
structure Volunteer where
  id : Nat
  interests : List String
  availability : List (String × List String)
  rating : ℚ
  total_hours : ℚ
  total_sessions : Nat
deriving DecidableEq, Repr

/-- The `breakdown` record of a `VolunteerMatch`. -/
structure MatchBreakdown where
  interest_score : ℚ
  rating_score : ℚ
  experience_score : ℚ
  availability_score : ℚ
deriving DecidableEq, Repr

/-- `hour < 12 ? 'morning' : hour < 17 ? 'afternoon' : 'evening'`. -/
def timeOfDay (hour : Nat) : String :=
  if hour < 12 then "morning" else if hour < 17 then "afternoon" else "evening"

/-- `availability[dayOfWeek] || []`. -/
def lookupAvailability (avail : List (String × List String)) (day : String) :
    List String :=
  ((avail.find? fun p => p.1 = day).map Prod.snd).getD []

/-- The availability test of `calculateMatchScore`:
`dayAvailability.includes(timeOfDay) || dayAvailability.includes('all')`. -/
def availabilityMatch (v : Volunteer) (a : Activity) : Bool :=
  let dayAvailability := lookupAvailability v.availability a.start_datetime.weekday
  dayAvailability.contains (timeOfDay a.start_datetime.hour) ||
    dayAvailability.contains "all"

/-- The number of iterations of the interest loop that add 10 points: the
activity tags contained in the volunteer's interest list. -/
def matchingTags (v : Volunteer) (a : Activity) : ℚ :=
  ((a.tags.countP fun t => v.interests.contains t : Nat) : ℚ)

/-- `calculateMatchScore` (`src/lib/matching.ts`): interest (10 per matching
tag, capped at 40), rating (`min(25, rating × 5)`), experience
(`min(15, total_hours / 10)`), availability (binary 20), summed and rounded
to 2 decimals via `Math.round(totalScore * 100) / 100`. -/
def calculateMatchScore (v : Volunteer) (a : Activity) : ℚ × MatchBreakdown :=
  let interestScore : ℚ := min 40 (10 * matchingTags v a)
  let ratingScore : ℚ := min 25 (v.rating * 5)
  let experienceScore : ℚ := min 15 (v.total_hours / 10)
  let availabilityScore : ℚ := if availabilityMatch v a then 20 else 0
  let totalScore := interestScore + ratingScore + experienceScore + availabilityScore
  ((jsRound (totalScore * 100) : ℚ) / 100,
   ⟨interestScore, ratingScore, experienceScore, availabilityScore⟩)

/-- The 2-decimal rounding `Math.round(t * 100) / 100` maps `[0, 100]` into
`[0, 100]`. -/
theorem jsRound_pct_bounds (t : ℚ) (h0 : 0 ≤ t) (h100 : t ≤ 100) :
    0 ≤ (jsRound (t * 100) : ℚ) / 100 ∧ (jsRound (t * 100) : ℚ) / 100 ≤ 100 := by
  constructor
  · have hz : (0 : ℤ) ≤ jsRound (t * 100) := by
      unfold jsRound
      apply Int.floor_nonneg.mpr
      nlinarith
    have : (0 : ℚ) ≤ (jsRound (t * 100) : ℚ) := by exact_mod_cast hz
    positivity
  · have hub : jsRound (t * 100) ≤ (10000 : ℤ) := by
      unfold jsRound
      have hle : t * 100 + 1 / 2 ≤ 10000 + 1 / 2 := by nlinarith
      calc ⌊t * 100 + 1 / 2⌋ ≤ ⌊(10000 + 1 / 2 : ℚ)⌋ := Int.floor_le_floor hle
        _ = 10000 := by
            rw [show (10000 + 1 / 2 : ℚ) = (10000 : ℤ) + (1 / 2 : ℚ) by push_cast; ring,
              Int.floor_int_add]
            norm_num
    have : (jsRound (t * 100) : ℚ) ≤ 10000 := by exact_mod_cast hub
    linarith

/-- **C6.** The match score is the rounded (2-decimal) sum of the four
components; with non-negative rating and hours it lies in `[0, 100]`; a
volunteer with zero matching tags, 0 rating, 0 hours and no availability
match scores exactly 0; a volunteer with ≥ 4 matching tags, 5.0 rating,
≥ 150 hours and matching availability scores exactly 100. -/
theorem match_score_bounds (v : Volunteer) (a : Activity)
    (hr : 0 ≤ v.rating) (hh : 0 ≤ v.total_hours) :
    ((calculateMatchScore v a).1 =
      (jsRound (((calculateMatchScore v a).2.interest_score +
        (calculateMatchScore v a).2.rating_score +
        (calculateMatchScore v a).2.experience_score +
        (calculateMatchScore v a).2.availability_score) * 100) : ℚ) / 100) ∧
    (0 ≤ (calculateMatchScore v a).1 ∧ (calculateMatchScore v a).1 ≤ 100) ∧
    (matchingTags v a = 0 → v.rating = 0 → v.total_hours = 0 →
      availabilityMatch v a = false → (calculateMatchScore v a).1 = 0) ∧
    (4 ≤ matchingTags v a → v.rating = 5 → 150 ≤ v.total_hours →
      availabilityMatch v a = true → (calculateMatchScore v a).1 = 100) := by
  have hm : (0 : ℚ) ≤ matchingTags v a := by
    unfold matchingTags
    positivity
  refine ⟨rfl, ?_, ?_, ?_⟩
  · -- bounds
    have h1l : (0 : ℚ) ≤ min 40 (10 * matchingTags v a) := le_min (by norm_num) (by positivity)
    have h1u : min 40 (10 * matchingTags v a) ≤ (40 : ℚ) := min_le_left _ _
    have h2l : (0 : ℚ) ≤ min 25 (v.rating * 5) := le_min (by norm_num) (by positivity)
    have h2u : min 25 (v.rating * 5) ≤ (25 : ℚ) := min_le_left _ _
    have h3l : (0 : ℚ) ≤ min 15 (v.total_hours / 10) := le_min (by norm_num) (by positivity)
    have h3u : min 15 (v.total_hours / 10) ≤ (15 : ℚ) := min_le_left _ _
    have h4l : (0 : ℚ) ≤ (if availabilityMatch v a then (20 : ℚ) else 0) := by
      split <;> norm_num
    have h4u : (if availabilityMatch v a then (20 : ℚ) else 0) ≤ 20 := by
      split <;> norm_num
    exact jsRound_pct_bounds _ (by linarith) (by linarith)
  · -- exact zero
    intro hc hr0 hh0 hav
    show (jsRound _ : ℚ) / 100 = 0
    rw [hav, hc, hr0, hh0]
    norm_num [jsRound]
  · -- exact hundred
    intro hc hr5 hh150 hav
    have e1 : min 40 (10 * matchingTags v a) = (40 : ℚ) := min_eq_left (by linarith)
    have e2 : min 25 (v.rating * 5) = (25 : ℚ) := by rw [hr5]; norm_num
    have e3 : min 15 (v.total_hours / 10) = (15 : ℚ) := min_eq_left (by linarith)
    show (jsRound _ : ℚ) / 100 = 100
    rw [hav, e1, e2, e3]
    norm_num [jsRound]

/-- Concrete volunteer for the C6 witness. -/
def c6Volunteer : Volunteer :=
  ⟨1, ["music", "art"], [("monday", ["morning"])], 4, 30, 2⟩

/-- Concrete activity for the C6 witness. -/
def c6Activity : Activity :=
  ⟨1, ⟨1700000000000, 10, "monday"⟩, ⟨1700003600000, 11, "monday"⟩, 10, 0, false,
    ["music"]⟩

/-- Witness for C6: the hypotheses hold at a concrete volunteer/activity. -/
theorem match_score_bounds_witness :
    (0 : ℚ) ≤ c6Volunteer.rating ∧ (0 : ℚ) ≤ c6Volunteer.total_hours ∧
    (0 ≤ (calculateMatchScore c6Volunteer c6Activity).1 ∧
      (calculateMatchScore c6Volunteer c6Activity).1 ≤ 100) :=
  ⟨by norm_num [c6Volunteer], by norm_num [c6Volunteer],
    (match_score_bounds c6Volunteer c6Activity (by norm_num [c6Volunteer])
      (by norm_num [c6Volunteer])).2.1⟩

/-! ## Assignment completion
(`src/app/api/volunteer-assignments/[id]/complete/route.ts`) -/

/-- `volunteer_assignments.status` strings. -/
inductive AStatus where
  | invited | confirmed | declined | completed | cancelled
deriving DecidableEq, Repr

/-- Row of `volunteer_assignments` (fields read by the complete route). -/
structure VolunteerAssignment where
  id : Nat
  status : AStatus
  check_in_time : Option Int
  check_out_time : Option Int
deriving DecidableEq, Repr

/-- The volunteer's rolling aggregates. -/
structure VolunteerStats where
  rating : ℚ
  total_hours : ℚ
  total_sessions : Nat
deriving DecidableEq, Repr

/-- Milliseconds per hour (`1000 * 60 * 60`). -/
def msPerHour : ℚ := 3600000

/-- The hours computation of the complete route: use `hours_contributed` when
given and truthy (JavaScript `!finalHours` also recomputes when 0 is passed),
else derive from check-in/check-out times, else fall back to the activity
duration; finally round to 1 decimal: `Math.round(finalHours * 10) / 10`. -/
def computeFinalHours (checkIn checkOut : Option Int) (actStart actEnd : Int)
    (hours_contributed : Option ℚ) : ℚ :=
  let fallback : ℚ :=
    match checkIn, checkOut with
    | some ci, some co => ((co - ci : Int) : ℚ) / msPerHour
    | _, _ => ((actEnd - actStart : Int) : ℚ) / msPerHour
  let base : ℚ :=
    match hours_contributed with
    | some h => if h = 0 then fallback else h
    | none => fallback
  (jsRound (base * 10) : ℚ) / 10

/-- The volunteer-stats update of the complete route:
`total_sessions + 1`, `total_hours + finalHours`, and the incremental
weighted average `((old_rating * old_sessions) + staff_rating) / new_sessions`
(taken to be `staff_rating` when `old_sessions = 0`), rounded to 1 decimal. -/
def updateVolunteerStats (v : VolunteerStats) (staff_rating finalHours : ℚ) :
    VolunteerStats :=
  let newTotalSessions := v.total_sessions + 1
  let newTotalHours := v.total_hours + finalHours
  let newRating0 : ℚ :=
    if 0 < v.total_sessions then
      (v.rating * v.total_sessions + staff_rating) / (newTotalSessions : ℚ)
    else staff_rating
  ⟨(jsRound (newRating0 * 10) : ℚ) / 10, newTotalHours, newTotalSessions⟩

/-- Outcome of the complete route. -/
inductive CompleteOutcome where
  | forbidden
  | notFound
  | alreadyCompleted
  | invalidStatus
  | activityNotEnded
  | ok (hours : ℚ) (newStats : VolunteerStats)
deriving DecidableEq, Repr

/-- `POST /api/volunteer-assignments/[id]/complete` after authentication:
staff-only; the assignment must exist, be `confirmed` (not already
`completed`), and its activity must have ended; then the hours are computed
and the volunteer aggregates updated.  `fetched` is the store's response for
the assignment joined with its activity window and volunteer stats. -/
def completeAssignment (isStaff : Bool)
    (fetched : Option (VolunteerAssignment × Int × Int × VolunteerStats))
    (now : Int) (staff_rating : ℚ) (hours_contributed : Option ℚ) :
    CompleteOutcome :=
  if ¬ isStaff then .forbidden
  else
    match fetched with
    | none => .notFound
    | some (assignment, actStart, actEnd, vstats) =>
      if assignment.status = .completed then .alreadyCompleted
      else if ¬ assignment.status = .confirmed then .invalidStatus
      else if now < actEnd then .activityNotEnded
      else
        let finalHours :=
          computeFinalHours assignment.check_in_time assignment.check_out_time
            actStart actEnd hours_contributed
        .ok finalHours (updateVolunteerStats vstats staff_rating finalHours)

/-- **C7.** Completing a confirmed assignment after the activity has ended
updates the volunteer's aggregates as
`new_rating = round1((old_rating * old_sessions + staff_rating) / (old_sessions + 1))`
(the code's `old_sessions = 0` special case agrees with the formula),
`total_sessions + 1`, and `total_hours + hours`; in particular rating 4.0
with 3 sessions and staff rating 5 yields rating 4.3. -/
theorem completeAssignment_updates_stats
    (assignment : VolunteerAssignment) (actStart actEnd : Int)
    (r th : ℚ) (n : Nat) (now : Int) (sr : ℚ) (hc : Option ℚ)
    (h finalH : ℚ) (st : VolunteerStats)
    (hok : completeAssignment true (some (assignment, actStart, actEnd, ⟨r, th, n⟩))
      now sr hc = .ok finalH st) :
    (st.rating = (jsRound (((r * n + sr) / ((n : ℚ) + 1)) * 10) : ℚ) / 10 ∧
      st.total_sessions = n + 1 ∧ st.total_hours = th + finalH) ∧
    updateVolunteerStats ⟨4, 20, 3⟩ 5 h = ⟨43 / 10, 20 + h, 4⟩ := by
  constructor
  · simp only [completeAssignment, not_true_eq_false, if_false, ite_false] at hok
    by_cases h1 : assignment.status = AStatus.completed
    · rw [if_pos h1] at hok
      exact absurd hok (by simp)
    · rw [if_neg h1] at hok
      by_cases h2 : ¬ assignment.status = AStatus.confirmed
      · rw [if_pos h2] at hok
        exact absurd hok (by simp)
      · rw [if_neg h2] at hok
        by_cases h3 : now < actEnd
        · rw [if_pos h3] at hok
          exact absurd hok (by simp)
        · rw [if_neg h3] at hok
          simp only [CompleteOutcome.ok.injEq] at hok
          obtain ⟨hfh, hst⟩ := hok
          subst hst
          subst hfh
          refine ⟨?_, rfl, rfl⟩
          unfold updateVolunteerStats
          simp only
          by_cases hn : 0 < n
          · rw [if_pos hn]
            norm_num [Nat.cast_add]
          · rw [if_neg hn]
            have : n = 0 := by omega
            subst this
            norm_num
  · unfold updateVolunteerStats
    norm_num [jsRound]

set_option maxHeartbeats 1000000 in
/-- Witness for C7: a concrete confirmed assignment (activity ended, staff
rating 5, 2 hours) completes, and volunteer (rating 4.0, 3 sessions) ends at
rating 4.3 with 4 sessions and 22 hours. -/
theorem completeAssignment_updates_stats_witness :
    completeAssignment true
        (some (⟨1, AStatus.confirmed, none, none⟩, 0, 3600000, ⟨4, 20, 3⟩))
        3600000 5 (some 2) =
      CompleteOutcome.ok 2 ⟨43 / 10, 22, 4⟩ ∧
    ((43 : ℚ) / 10 = (jsRound (((4 * ((3 : Nat) : ℚ) + 5) / (((3 : Nat) : ℚ) + 1)) * 10) : ℚ) / 10 ∧
      (4 : Nat) = 3 + 1 ∧ (22 : ℚ) = 20 + 2) :=
  have hok : completeAssignment true
      (some (⟨1, AStatus.confirmed, none, none⟩, 0, 3600000, ⟨4, 20, 3⟩))
      3600000 5 (some 2) = CompleteOutcome.ok 2 ⟨43 / 10, 22, 4⟩ := by
    simp only [completeAssignment]
    norm_num
    rw [if_neg (by decide : ¬ AStatus.confirmed = AStatus.completed)]
    simp only [CompleteOutcome.ok.injEq]
    constructor
    · norm_num [computeFinalHours, jsRound]
    · norm_num [updateVolunteerStats, computeFinalHours, jsRound]
  ⟨hok, (completeAssignment_updates_stats ⟨1, AStatus.confirmed, none, none⟩
    0 3600000 4 20 3 3600000 5 (some 2) 1 2 ⟨43 / 10, 22, 4⟩ hok).1⟩

/-! ## Waitlist Manager (`src/lib/waitlist.ts`) -/

/-- `WAITLIST_EXPIRY_HOURS = 2`. -/
def WAITLIST_EXPIRY_HOURS : Int := 2

/-- `expiresAt.setHours(expiresAt.getHours() + WAITLIST_EXPIRY_HOURS)`:
two hours, in epoch milliseconds. -/
def waitlistExpiryMs : Int := WAITLIST_EXPIRY_HOURS * 3600000

/-- Modelled from the spec: the store-side `get_next_waitlist_position` RPC
is not under `src/` (only its call site is).  Per §4.3 Enqueue it returns
the current max position for the activity plus 1, starting at 1 when no
entries exist. -/
def getNextWaitlistPosition (db : DB) (activityId : Nat) : Nat :=
  ((db.waitlist.filter fun e => decide (e.activity_id = activityId)).foldl
    (fun m e => max m e.position) 0) + 1

/-- The result record of `addToWaitlist`. -/
structure WaitlistAddResult where
  success : Bool
  position : Option Nat
  error : Option String
deriving DecidableEq, Repr

/-- `addToWaitlist` (`src/lib/waitlist.ts`): compute the next position, then
insert a `waiting` row.  The store's uniqueness constraint per
(activity, participant) on `waitlist_entries` is modelled from the spec
(§2); its violation is the source's error-code-23505 branch. -/
def addToWaitlist (db : DB) (activityId participantId : Nat) :
    DB × WaitlistAddResult :=
  let position := getNextWaitlistPosition db activityId
  if (db.waitlist.any fun w =>
      decide (w.activity_id = activityId ∧ w.participant_id = participantId)) then
    (db, ⟨false, none, some "Already on waitlist for this activity"⟩)
  else
    let entry : WaitlistEntry :=
      ⟨db.nextWaitlistId, activityId, participantId, position, .waiting, none, none⟩
    ({ db with waitlist := db.waitlist ++ [entry],
               nextWaitlistId := db.nextWaitlistId + 1 },
     ⟨true, some position, none⟩)

/-- The result record of `processWaitlist`. -/
structure ProcessWaitlistResult where
  notified : Bool
  participantId : Option Nat
deriving DecidableEq, Repr

/-- The filter of `processWaitlist`'s query:
`.eq('activity_id', activityId).eq('status', 'waiting')`. -/
def waitingFor (activityId : Nat) (e : WaitlistEntry) : Bool :=
  decide (e.activity_id = activityId ∧ e.status = WStatus.waiting)

/-- `.order('position', ascending).limit(1).single()`: the first entry of
minimal position (store order breaks ties); `none` when the filtered set is
empty (the query's `single()` errors and the source returns
`{ notified: false }`). -/
def selectMinPos : List WaitlistEntry → Option WaitlistEntry
  | [] => none
  | e :: es =>
    match selectMinPos es with
    | none => some e
    | some m => if e.position ≤ m.position then some e else some m

/-- The `notified` update of `processWaitlist`:
`status := notified, notified_at := now, expires_at := now + 2h`. -/
def promoteEntry (now : Int) (e : WaitlistEntry) : WaitlistEntry :=
  { e with status := .notified, notified_at := some now,
           expires_at := some (now + waitlistExpiryMs) }

/-- `processWaitlist` (`src/lib/waitlist.ts` lines 747–787): pick the
`waiting` entry with the lowest position for the activity; if none, no-op;
otherwise mark it `notified` with a 2-hour offer window. -/
def processWaitlist (db : DB) (activityId : Nat) (now : Int) :
    DB × ProcessWaitlistResult :=
  match selectMinPos (db.waitlist.filter (waitingFor activityId)) with
  | none => (db, ⟨false, none⟩)
  | some nextEntry =>
    ({ db with waitlist := db.waitlist.map fun e =>
        if e.id = nextEntry.id then promoteEntry now e else e },
     ⟨true, some nextEntry.participant_id⟩)

/-- The result record of `acceptWaitlistOffer`. -/
structure AcceptResult where
  success : Bool
  bookingId : Option Nat
  error : Option String
deriving DecidableEq, Repr

/-- The expiry test of `acceptWaitlistOffer`:
`entry.expires_at && new Date(entry.expires_at) < new Date()`. -/
def offerExpired (expires_at : Option Int) (now : Int) : Bool :=
  match expires_at with
  | some t => decide (t < now)
  | none => false

/-- `acceptWaitlistOffer` (`src/lib/waitlist.ts` lines 790–859): the entry
must exist and be `notified`; an expired offer is marked `expired`, the next
person is processed, and the accept fails; a cancelled activity fails the
accept; otherwise a `confirmed` booking is inserted (the store's uniqueness
constraint per (activity, participant) on `bookings`, modelled from the
spec §2, is the source's `bookingError` branch), `current_bookings` is
incremented and the entry is marked `accepted`.  A dangling
`entry.activity` would be `null` in the source and throw; that branch is
embedded as a distinguished error. -/
def acceptWaitlistOffer (db : DB) (waitlistId registeredBy : Nat) (now : Int) :
    DB × AcceptResult :=
  match db.waitlist.find? fun e => decide (e.id = waitlistId) with
  | none => (db, ⟨false, none, some "Waitlist entry not found"⟩)
  | some entry =>
    if ¬ entry.status = .notified then
      (db, ⟨false, none, some "No active offer for this waitlist entry"⟩)
    else if offerExpired entry.expires_at now then
      let db1 := { db with waitlist := db.waitlist.map fun e =>
          if e.id = waitlistId then { e with status := .expired } else e }
      ((processWaitlist db1 entry.activity_id now).1,
       ⟨false, none, some "Offer has expired"⟩)
    else
      match db.activities.find? fun a => decide (a.id = entry.activity_id) with
      | none => (db, ⟨false, none, some "TypeError: activity is null"⟩)
      | some activity =>
        if activity.is_cancelled then
          (db, ⟨false, none, some "Activity has been cancelled"⟩)
        else if (db.bookings.any fun b =>
            decide (b.activity_id = entry.activity_id ∧
              b.participant_id = entry.participant_id)) then
          (db, ⟨false, none, some "Failed to create booking"⟩)
        else
          let booking : Booking :=
            ⟨db.nextBookingId, entry.activity_id, entry.participant_id,
              registeredBy, .confirmed, none⟩
          ({ db with
              bookings := db.bookings ++ [booking],
              nextBookingId := db.nextBookingId + 1,
              activities := db.activities.map fun a =>
                if a.id = entry.activity_id then
                  { a with current_bookings := activity.current_bookings + 1 }
                else a,
              waitlist := db.waitlist.map fun e =>
                if e.id = waitlistId then { e with status := .accepted } else e },
           ⟨true, some booking.id, none⟩)

/-- `declineWaitlistOffer` (`src/lib/waitlist.ts` lines 862–884): mark the
entry `declined` (unconditionally on its current status), then process the
next person for the same activity. -/
def declineWaitlistOffer (db : DB) (waitlistId : Nat) (now : Int) : DB × Bool :=
  match db.waitlist.find? fun e => decide (e.id = waitlistId) with
  | none => (db, false)
  | some entry =>
    let db1 := { db with waitlist := db.waitlist.map fun e =>
        if e.id = waitlistId then { e with status := .declined } else e }
    ((processWaitlist db1 entry.activity_id now).1, true)

/-- The filter of `expireOldOffers`:
`.eq('status', 'notified').lt('expires_at', now)` (a null `expires_at` never
satisfies the `lt`). -/
def notifiedExpired (now : Int) (e : WaitlistEntry) : Bool :=
  decide (e.status = WStatus.notified) && offerExpired e.expires_at now

/-- `[...new Set(xs)]`: distinct values in first-occurrence order. -/
def uniqueFirst : List Nat → List Nat
  | [] => []
  | x :: xs => x :: uniqueFirst (xs.filter fun y => decide (¬ y = x))
termination_by l => l.length
decreasing_by
  simp only [List.length_cons]
  exact Nat.lt_succ_of_le (List.length_filter_le _ _)

/-- `expireOldOffers` (`src/lib/waitlist.ts` lines 887–911): batch-mark all
`notified` entries with `expires_at < now` as `expired`, then run
`processWaitlist` once per distinct touched activity; return how many
entries were expired. -/
def expireOldOffers (db : DB) (now : Int) : DB × Nat :=
  let expiredEntries := db.waitlist.filter (notifiedExpired now)
  if expiredEntries.isEmpty then (db, 0)
  else
    let expiredIds := expiredEntries.map (·.id)
    let db1 := { db with waitlist := db.waitlist.map fun e =>
        if (decide (e.id ∈ expiredIds)) then { e with status := .expired } else e }
    let activityIds := uniqueFirst (expiredEntries.map (·.activity_id))
    (activityIds.foldl (fun d a => (processWaitlist d a now).1) db1,
     expiredEntries.length)

/-! ## Booking Admission (`src/app/api/bookings/route.ts`, POST) -/

/-- The exit points of `POST /api/bookings` after authentication and
input validation. -/
inductive BookingOutcome where
  | notFoundActivity
  | activityCancelled
  | pastActivity
  | notFoundParticipant
  | alreadyRegistered
  | bookingConflict (conflicting : Option Nat)
  | waitlistError (msg : String)
  | waitlisted (position : Nat)
  | confirmed (bookingId : Nat)
deriving DecidableEq, Repr

/-- `POST /api/bookings` (booking admission) on a healthy store: load and
validate activity and participant; reject an existing `confirmed` booking
row (a `cancelled` row proceeds — re-registration); run the conflict check
(healthy-store instantiation: the RPC succeeds with the spec-modelled
`check_booking_conflict` result); full activities enqueue to the waitlist;
otherwise insert a `confirmed` booking — the insert's duplicate-key (23505)
branch returns ALREADY_REGISTERED under the store's modelled pair
uniqueness — and increment `current_bookings`. -/
def createBooking (db : DB) (activity_id participant_id actorUserId : Nat)
    (now : Int) : DB × BookingOutcome :=
  match db.activities.find? fun a => decide (a.id = activity_id) with
  | none => (db, .notFoundActivity)
  | some activity =>
    if activity.is_cancelled then (db, .activityCancelled)
    else if activity.start_datetime.time < now then (db, .pastActivity)
    else
      match db.participants.find? fun p => decide (p.id = participant_id) with
      | none => (db, .notFoundParticipant)
      | some _ =>
        let existingBooking := db.bookings.find? fun b =>
          decide (b.activity_id = activity_id ∧ b.participant_id = participant_id)
        if (match existingBooking with
            | some eb => decide (eb.status = BStatus.confirmed)
            | none => false) then
          (db, .alreadyRegistered)
        else
          let conflictResult := checkBookingConflictFn
            (.ok (conflictRPC db participant_id activity.start_datetime.time
              activity.end_datetime.time none))
            (some (confirmedJoined db participant_id))
            activity.start_datetime.time activity.end_datetime.time none
          if conflictResult.has_conflict then
            (db, .bookingConflict conflictResult.conflicting_activity)
          else if activity.capacity ≤ activity.current_bookings then
            match addToWaitlist db activity_id participant_id with
            | (db', wres) =>
              if wres.success then (db', .waitlisted (wres.position.getD 0))
              else (db', .waitlistError (wres.error.getD "Failed to add to waitlist"))
          else if (db.bookings.any fun b =>
              decide (b.activity_id = activity_id ∧
                b.participant_id = participant_id)) then
            (db, .alreadyRegistered)
          else
            let booking : Booking :=
              ⟨db.nextBookingId, activity_id, participant_id, actorUserId,
                .confirmed, none⟩
            ({ db with
                bookings := db.bookings ++ [booking],
                nextBookingId := db.nextBookingId + 1,
                activities := db.activities.map fun a =>
                  if a.id = activity_id then
                    { a with current_bookings := activity.current_bookings + 1 }
                  else a },
             .confirmed booking.id)

/-! ## Booking cancellation (`src/app/api/bookings/[id]/cancel/route.ts`) -/

/-- The exit points of `PUT /api/bookings/[id]/cancel` after authentication.
`typeError` embeds the source throwing on a dangling `booking.activity`
reference (unreachable in well-formed states). -/
inductive CancelOutcome where
  | notFound
  | alreadyCancelled
  | forbidden
  | cancellationDeadline
  | typeError
  | ok (waitlist_notified : Bool)
deriving DecidableEq, Repr

/-- `permissions.canViewAllBookings` (`src/lib/auth.ts`): staff only. -/
def canViewAllBookings (role : String) : Bool := decide (role = "staff")

/-- `PUT /api/bookings/[id]/cancel`: owner-or-staff may cancel a
non-cancelled booking; non-staff not within 2 hours of the start; mark
`cancelled`, decrement `current_bookings` (floored at 0 via `Math.max`),
then offer the freed seat to the waitlist head. -/
def cancelBooking (db : DB) (bookingId actorUserId : Nat) (role : String)
    (now : Int) : DB × CancelOutcome :=
  match db.bookings.find? fun b => decide (b.id = bookingId) with
  | none => (db, .notFound)
  | some booking =>
    if booking.status = .cancelled then (db, .alreadyCancelled)
    else
      let isOwner :=
        (db.participants.find? fun p => decide (p.id = booking.participant_id)).elim
          false fun p => decide (p.user_id = actorUserId)
      let isStaff := canViewAllBookings role
      if !isOwner && !isStaff then (db, .forbidden)
      else
        match db.activities.find? fun a => decide (a.id = booking.activity_id) with
        | none => (db, .typeError)
        | some activity =>
          if !isStaff && decide (activity.start_datetime.time ≤ now + 7200000) then
            (db, .cancellationDeadline)
          else
            let db1 := { db with
              bookings := db.bookings.map fun b =>
                if b.id = bookingId then
                  { b with status := .cancelled, cancelled_at := some now }
                else b,
              activities := db.activities.map fun a =>
                if a.id = activity.id then
                  { a with current_bookings := activity.current_bookings - 1 }
                else a }
            match processWaitlist db1 activity.id now with
            | (db2, pres) => (db2, .ok pres.notified)

/-! ## Accept route (`src/app/api/waitlist/[id]/accept/route.ts`) -/

/-- An authenticated JWT payload (fields the accept route reads). -/
structure AuthUser where
  userId : Nat
  role : String
deriving DecidableEq, Repr

/-- The accept route's response shapes. -/
inductive AcceptRouteResult where
  | unauthorized
  | waitlistError (msg : String)
  | ok (booking_id : Option Nat)
deriving DecidableEq, Repr

/-- `POST /api/waitlist/[id]/accept`: any authenticated user (no role or
ownership check) delegates to `acceptWaitlistOffer` with their own user id
as `registeredBy`. -/
def acceptRoute (db : DB) (auth : Option AuthUser) (waitlistId : Nat)
    (now : Int) : DB × AcceptRouteResult :=
  match auth with
  | none => (db, .unauthorized)
  | some user =>
    match acceptWaitlistOffer db waitlistId user.userId now with
    | (db', result) =>
      if result.success then (db', .ok result.bookingId)
      else (db', .waitlistError (result.error.getD "Failed to accept offer"))

/-! ## Waitlist promotion properties -/

theorem selectMinPos_eq_none {l : List WaitlistEntry} :
    selectMinPos l = none ↔ l = [] := by
  cases l with
  | nil => simp [selectMinPos]
  | cons x xs =>
    unfold selectMinPos
    cases hx : selectMinPos xs with
    | none => simp
    | some m =>
      dsimp only
      split <;> simp

theorem selectMinPos_mem {l : List WaitlistEntry} {e : WaitlistEntry}
    (h : selectMinPos l = some e) : e ∈ l := by
  induction l with
  | nil => simp [selectMinPos] at h
  | cons x xs ih =>
    unfold selectMinPos at h
    cases hx : selectMinPos xs with
    | none =>
      rw [hx] at h
      dsimp only at h
      simp only [Option.some.injEq] at h
      subst h
      exact List.mem_cons_self _ _
    | some m =>
      rw [hx] at h
      dsimp only at h
      by_cases hp : x.position ≤ m.position
      · rw [if_pos hp] at h
        simp only [Option.some.injEq] at h
        subst h
        exact List.mem_cons_self _ _
      · rw [if_neg hp] at h
        simp only [Option.some.injEq] at h
        subst h
        exact List.mem_cons_of_mem _ (ih hx)

theorem selectMinPos_min {l : List WaitlistEntry} :
    ∀ {e : WaitlistEntry}, selectMinPos l = some e →
      ∀ x ∈ l, e.position ≤ x.position := by
  induction l with
  | nil => intro e h; simp [selectMinPos] at h
  | cons x xs ih =>
    intro e h y hy
    unfold selectMinPos at h
    cases hx : selectMinPos xs with
    | none =>
      rw [hx] at h
      dsimp only at h
      simp only [Option.some.injEq] at h
      subst h
      have hxs : xs = [] := selectMinPos_eq_none.mp hx
      subst hxs
      rcases List.mem_singleton.mp hy with rfl
      exact le_refl _
    | some m =>
      rw [hx] at h
      dsimp only at h
      by_cases hp : x.position ≤ m.position
      · rw [if_pos hp] at h
        simp only [Option.some.injEq] at h
        subst h
        rcases List.mem_cons.mp hy with rfl | hmem
        · exact le_refl _
        · exact le_trans hp (ih hx y hmem)
      · rw [if_neg hp] at h
        simp only [Option.some.injEq] at h
        subst h
        rcases List.mem_cons.mp hy with rfl | hmem
        · exact le_of_not_le hp
        · exact ih hx y hmem

/-- **C2.** Whenever a seat frees, `processWaitlist` (invoked by booking
cancellation, offer decline, and offer expiry) promotes exactly the waiting
entry with the lowest position for the activity to `notified`, setting
`notified_at = now` and `expires_at = now + 2 hours`; every other entry is
left unchanged, and no waiting entry with a smaller position exists (FIFO:
a later-created entry — one with a higher position — is never notified
while an earlier one is still waiting); if no waiting entry exists the call
is a no-op. -/
theorem processWaitlist_promotes_fifo (db : DB) (activityId : Nat) (now : Int) :
    (selectMinPos (db.waitlist.filter (waitingFor activityId)) = none →
      processWaitlist db activityId now = (db, ⟨false, none⟩)) ∧
    (∀ e, selectMinPos (db.waitlist.filter (waitingFor activityId)) = some e →
      (processWaitlist db activityId now).2 = ⟨true, some e.participant_id⟩ ∧
      e ∈ db.waitlist ∧ e.activity_id = activityId ∧ e.status = .waiting ∧
      promoteEntry now e ∈ (processWaitlist db activityId now).1.waitlist ∧
      (promoteEntry now e).status = .notified ∧
      (promoteEntry now e).notified_at = some now ∧
      (promoteEntry now e).expires_at = some (now + waitlistExpiryMs) ∧
      waitlistExpiryMs = 7200000 ∧
      (∀ x ∈ db.waitlist, ¬ x.id = e.id →
        x ∈ (processWaitlist db activityId now).1.waitlist) ∧
      (∀ x ∈ db.waitlist, x.activity_id = activityId → x.status = .waiting →
        e.position ≤ x.position)) := by
  constructor
  · intro h
    unfold processWaitlist
    rw [h]
  · intro e h
    have hmemf : e ∈ db.waitlist.filter (waitingFor activityId) := selectMinPos_mem h
    have hmem : e ∈ db.waitlist := (List.mem_filter.mp hmemf).1
    have hprops : waitingFor activityId e = true := (List.mem_filter.mp hmemf).2
    have hact : e.activity_id = activityId ∧ e.status = WStatus.waiting := by
      simpa [waitingFor] using hprops
    unfold processWaitlist
    rw [h]
    refine ⟨rfl, hmem, hact.1, hact.2, ?_, rfl, rfl, rfl, by decide, ?_, ?_⟩
    · have := List.mem_map_of_mem
        (fun x => if x.id = e.id then promoteEntry now x else x) hmem
      simpa using this
    · intro x hx hne
      have := List.mem_map_of_mem
        (fun y => if y.id = e.id then promoteEntry now y else y) hx
      simp only [if_neg hne] at this
      simpa using this
    · intro x hx hxa hxs
      exact selectMinPos_min h x
        (List.mem_filter.mpr ⟨hx, by simp [waitingFor, hxa, hxs]⟩)

/-- Concrete store for the C2 witness: two waiting entries for activity 5,
positions 2 and 1 (created out of order in the store). -/
def c2DB : DB :=
  ⟨[], [], [⟨1, 5, 10, 2, .waiting, none, none⟩,
            ⟨2, 5, 11, 1, .waiting, none, none⟩], [], 0, 0⟩

/-- Witness for C2: at `c2DB`, the minimum-position waiting entry (position
1, participant 11) is selected and promoted. -/
theorem processWaitlist_promotes_fifo_witness :
    selectMinPos (c2DB.waitlist.filter (waitingFor 5)) =
      some ⟨2, 5, 11, 1, .waiting, none, none⟩ ∧
    ((processWaitlist c2DB 5 100).2 = ⟨true, some 11⟩ ∧
      (⟨2, 5, 11, 1, .waiting, none, none⟩ : WaitlistEntry) ∈ c2DB.waitlist ∧
      (5 : Nat) = 5 ∧ WStatus.waiting = WStatus.waiting ∧
      promoteEntry 100 ⟨2, 5, 11, 1, .waiting, none, none⟩ ∈
        (processWaitlist c2DB 5 100).1.waitlist ∧
      (promoteEntry 100 ⟨2, 5, 11, 1, .waiting, none, none⟩).status = .notified ∧
      (promoteEntry 100 ⟨2, 5, 11, 1, .waiting, none, none⟩).notified_at = some 100 ∧
      (promoteEntry 100 ⟨2, 5, 11, 1, .waiting, none, none⟩).expires_at =
        some (100 + waitlistExpiryMs) ∧
      waitlistExpiryMs = 7200000 ∧
      (∀ x ∈ c2DB.waitlist, ¬ x.id = 2 →
        x ∈ (processWaitlist c2DB 5 100).1.waitlist) ∧
      (∀ x ∈ c2DB.waitlist, x.activity_id = 5 → x.status = .waiting →
        (1 : Nat) ≤ x.position)) :=
  have hsel : selectMinPos (c2DB.waitlist.filter (waitingFor 5)) =
      some ⟨2, 5, 11, 1, .waiting, none, none⟩ := by decide
  ⟨hsel, (processWaitlist_promotes_fifo c2DB 5 100).2
    ⟨2, 5, 11, 1, .waiting, none, none⟩ hsel⟩

/-- `processWaitlist` preserves the id sequence of the waitlist (and all
other store tables). -/
theorem processWaitlist_ids (d : DB) (a : Nat) (now : Int) :
    (processWaitlist d a now).1.waitlist.map (fun e => e.id) =
      d.waitlist.map (fun e => e.id) ∧
    (processWaitlist d a now).1.activities = d.activities ∧
    (processWaitlist d a now).1.bookings = d.bookings := by
  unfold processWaitlist
  cases h : selectMinPos (d.waitlist.filter (waitingFor a)) with
  | none => exact ⟨rfl, rfl, rfl⟩
  | some n =>
    refine ⟨?_, rfl, rfl⟩
    simp only [List.map_map]
    apply List.map_congr_left
    intro x _
    by_cases hid : x.id = n.id
    · simp [hid, promoteEntry]
    · simp [hid]

/-- With distinct entry ids, `processWaitlist` leaves every non-`waiting`
entry in place. -/
theorem processWaitlist_preserves_nonwaiting {d : DB} {a : Nat} {now : Int}
    {x : WaitlistEntry} (hnd : (d.waitlist.map (fun e => e.id)).Nodup)
    (hx : x ∈ d.waitlist) (hxs : ¬ x.status = .waiting) :
    x ∈ (processWaitlist d a now).1.waitlist := by
  unfold processWaitlist
  cases h : selectMinPos (d.waitlist.filter (waitingFor a)) with
  | none => exact hx
  | some n =>
    have hn : n ∈ d.waitlist ∧ waitingFor a n = true :=
      List.mem_filter.mp (selectMinPos_mem h)
    have hnw : n.status = .waiting := by
      have := hn.2
      simp [waitingFor] at this
      exact this.2
    have hid : ¬ x.id = n.id := by
      intro hcontra
      have := List.inj_on_of_nodup_map hnd hx hn.1 hcontra
      rw [this] at hxs
      exact hxs hnw
    have := List.mem_map_of_mem
      (fun y => if y.id = n.id then promoteEntry now y else y) hx
    simp only [if_neg hid] at this
    simpa using this

/-- With distinct entry ids, `processWaitlist` for activity `a'` leaves
every entry of a different activity in place. -/
theorem processWaitlist_preserves_other_activity {d : DB} {a' : Nat} {now : Int}
    {x : WaitlistEntry} (hnd : (d.waitlist.map (fun e => e.id)).Nodup)
    (hx : x ∈ d.waitlist) (hxa : ¬ x.activity_id = a') :
    x ∈ (processWaitlist d a' now).1.waitlist := by
  unfold processWaitlist
  cases h : selectMinPos (d.waitlist.filter (waitingFor a')) with
  | none => exact hx
  | some n =>
    have hn : n ∈ d.waitlist ∧ waitingFor a' n = true :=
      List.mem_filter.mp (selectMinPos_mem h)
    have hna : n.activity_id = a' := by
      have := hn.2
      simp [waitingFor] at this
      exact this.1
    have hid : ¬ x.id = n.id := by
      intro hcontra
      have := List.inj_on_of_nodup_map hnd hx hn.1 hcontra
      rw [this] at hxa
      exact hxa hna
    have := List.mem_map_of_mem
      (fun y => if y.id = n.id then promoteEntry now y else y) hx
    simp only [if_neg hid] at this
    simpa using this

/-- A pointwise-inert map does not change a filter: each element is either
fixed by `f` or rejected by `p` both before and after. -/
theorem filter_map_eq_filter {α : Type} (p : α → Bool) (f : α → α) :
    ∀ l : List α, (∀ x ∈ l, f x = x ∨ (p x = false ∧ p (f x) = false)) →
      (l.map f).filter p = l.filter p
  | [], _ => rfl
  | x :: xs, h => by
    have hx := h x (List.mem_cons_self _ _)
    have hxs := fun y hy => h y (List.mem_cons_of_mem _ hy)
    have ih := filter_map_eq_filter p f xs hxs
    simp only [List.map_cons, List.filter_cons]
    rcases hx with hfx | ⟨hpx, hpfx⟩
    · rw [hfx, ih]
    · rw [hpx, hpfx]
      simp [ih]

/-- With distinct entry ids, `processWaitlist` for `a'` does not change the
set of `waiting` entries of any other activity `a`. -/
theorem processWaitlist_filter_other {d : DB} {a a' : Nat} {now : Int}
    (hnd : (d.waitlist.map (fun e => e.id)).Nodup) (hne : ¬ a = a') :
    (processWaitlist d a' now).1.waitlist.filter (waitingFor a) =
      d.waitlist.filter (waitingFor a) := by
  unfold processWaitlist
  cases h : selectMinPos (d.waitlist.filter (waitingFor a')) with
  | none => rfl
  | some n =>
    have hn : n ∈ d.waitlist ∧ waitingFor a' n = true :=
      List.mem_filter.mp (selectMinPos_mem h)
    have hna : n.activity_id = a' := by
      have := hn.2
      simp [waitingFor] at this
      exact this.1
    apply filter_map_eq_filter
    intro x hx
    by_cases hid : x.id = n.id
    · right
      have hxn : x = n := List.inj_on_of_nodup_map hnd hx hn.1 hid
      subst hxn
      constructor
      · simp only [waitingFor, hna, decide_eq_false_iff_not]
        intro hcontra
        exact hne hcontra.1.symm
      · simp [if_pos hid, waitingFor, promoteEntry]
    · left
      simp [if_neg hid]

theorem mem_uniqueFirst : ∀ (l : List Nat) (a : Nat), a ∈ uniqueFirst l ↔ a ∈ l
  | [], a => by simp [uniqueFirst]
  | x :: xs, a => by
    rw [uniqueFirst]
    by_cases hax : a = x
    · subst hax
      simp
    · simp only [List.mem_cons, hax, false_or]
      rw [mem_uniqueFirst (xs.filter fun y => decide (¬ y = x)) a]
      simp [List.mem_filter, hax]
termination_by l => l.length
decreasing_by
  simp only [List.length_cons]
  exact Nat.lt_succ_of_le (List.length_filter_le _ _)

theorem uniqueFirst_nodup : ∀ (l : List Nat), (uniqueFirst l).Nodup
  | [] => by simp [uniqueFirst]
  | x :: xs => by
    rw [uniqueFirst]
    refine List.nodup_cons.mpr ⟨?_, uniqueFirst_nodup _⟩
    rw [mem_uniqueFirst]
    simp
termination_by l => l.length
decreasing_by
  simp only [List.length_cons]
  exact Nat.lt_succ_of_le (List.length_filter_le _ _)

/-- One step of the expiry sweep's promotion fold. -/
def pwStep (now : Int) (d : DB) (a : Nat) : DB := (processWaitlist d a now).1

/-- The promotion fold preserves the waitlist id sequence. -/
theorem foldl_pwStep_ids (now : Int) :
    ∀ (as : List Nat) (d : DB),
      (as.foldl (pwStep now) d).waitlist.map (fun e => e.id) =
        d.waitlist.map (fun e => e.id)
  | [], _ => rfl
  | a :: as, d => by
    rw [List.foldl_cons, foldl_pwStep_ids now as (pwStep now d a)]
    exact (processWaitlist_ids d a now).1

/-- The promotion fold leaves every non-`waiting` entry in place (given
distinct entry ids). -/
theorem foldl_pwStep_preserves_nonwaiting (now : Int) :
    ∀ (as : List Nat) (d : DB) (x : WaitlistEntry),
      (d.waitlist.map (fun e => e.id)).Nodup →
      x ∈ d.waitlist → ¬ x.status = .waiting →
      x ∈ (as.foldl (pwStep now) d).waitlist
  | [], _, _, _, hx, _ => hx
  | a :: as, d, x, hnd, hx, hxs => by
    rw [List.foldl_cons]
    have hnd' : ((pwStep now d a).waitlist.map (fun e => e.id)).Nodup := by
      rw [pwStep, (processWaitlist_ids d a now).1]
      exact hnd
    exact foldl_pwStep_preserves_nonwaiting now as (pwStep now d a) x hnd'
      (processWaitlist_preserves_nonwaiting hnd hx hxs) hxs

/-- If `a` occurs in a duplicate-free activity list and the waiting queue of
`a` selects entry `e`, then after folding the promotion step over the whole
list, the promoted version of `e` is in the waitlist. -/
theorem foldl_pwStep_promotes (now : Int) :
    ∀ (as : List Nat) (d : DB) (a : Nat) (e : WaitlistEntry),
      as.Nodup → a ∈ as →
      (d.waitlist.map (fun x => x.id)).Nodup →
      selectMinPos (d.waitlist.filter (waitingFor a)) = some e →
      promoteEntry now e ∈ (as.foldl (pwStep now) d).waitlist
  | [], _, _, _, _, ha, _, _ => absurd ha (List.not_mem_nil _)
  | a' :: as, d, a, e, hnodup, ha, hnd, hsel => by
    rw [List.foldl_cons]
    have hnd' : ((pwStep now d a').waitlist.map (fun x => x.id)).Nodup := by
      rw [pwStep, (processWaitlist_ids d a' now).1]
      exact hnd
    rcases List.mem_cons.mp ha with rfl | hmem
    · -- the head is `a`: this step promotes `e`
      have hpromoted : promoteEntry now e ∈ (pwStep now d a).waitlist := by
        rw [pwStep]
        unfold processWaitlist
        rw [hsel]
        have hmeme : e ∈ d.waitlist := (List.mem_filter.mp (selectMinPos_mem hsel)).1
        have := List.mem_map_of_mem
          (fun y => if y.id = e.id then promoteEntry now y else y) hmeme
        simpa using this
      exact foldl_pwStep_preserves_nonwaiting now as (pwStep now d a)
        (promoteEntry now e) hnd' hpromoted (by simp [promoteEntry])
    · -- the head is a different activity: the waiting queue of `a` is intact
      have hne : ¬ a = a' := by
        intro hcontra
        subst hcontra
        exact (List.nodup_cons.mp hnodup).1 hmem
      have hsel' : selectMinPos ((pwStep now d a').waitlist.filter (waitingFor a)) =
          some e := by
        rw [pwStep, processWaitlist_filter_other hnd hne]
        exact hsel
      exact foldl_pwStep_promotes now as (pwStep now d a') a e
        (List.nodup_cons.mp hnodup).2 hmem hnd' hsel'

/-- The intermediate state of the sweep: all `notified` entries with
`expires_at < now` batch-marked `expired`. -/
def sweepMarked (db : DB) (now : Int) : DB :=
  { db with waitlist := db.waitlist.map fun e =>
      if (decide (e.id ∈ (db.waitlist.filter (notifiedExpired now)).map (·.id))) then
        { e with status := .expired }
      else e }

/-- On a non-empty expired set, `expireOldOffers` is the promotion fold over
the distinct touched activities, applied to the batch-marked state, paired
with the number of expired entries. -/
theorem expireOldOffers_eq (db : DB) (now : Int)
    (h : ¬ (db.waitlist.filter (notifiedExpired now)).isEmpty = true) :
    expireOldOffers db now =
      ((uniqueFirst ((db.waitlist.filter (notifiedExpired now)).map
          (fun e => e.activity_id))).foldl (pwStep now) (sweepMarked db now),
       (db.waitlist.filter (notifiedExpired now)).length) := by
  simp only [expireOldOffers, sweepMarked, pwStep]
  rw [if_neg h]
  rfl

/-- Batch-marking preserves the waitlist id sequence. -/
theorem sweepMarked_ids (db : DB) (now : Int) :
    (sweepMarked db now).waitlist.map (fun e => e.id) =
      db.waitlist.map (fun e => e.id) := by
  unfold sweepMarked
  simp only [List.map_map]
  apply List.map_congr_left
  intro x _
  by_cases hid : x.id ∈ (db.waitlist.filter (notifiedExpired now)).map (·.id)
  · simp [hid]
  · simp [hid]

/-- With distinct ids, batch-marking does not change any activity's
`waiting` queue. -/
theorem sweepMarked_filter_waiting (db : DB) (now : Int) (a : Nat)
    (hnd : (db.waitlist.map (fun e => e.id)).Nodup) :
    (sweepMarked db now).waitlist.filter (waitingFor a) =
      db.waitlist.filter (waitingFor a) := by
  unfold sweepMarked
  apply filter_map_eq_filter
  intro x hx
  by_cases hid : x.id ∈ (db.waitlist.filter (notifiedExpired now)).map (·.id)
  · right
    rcases List.mem_map.mp hid with ⟨y, hy, hyid⟩
    have hyw : y ∈ db.waitlist := (List.mem_filter.mp hy).1
    have hyn : notifiedExpired now y = true := (List.mem_filter.mp hy).2
    have hyx : y = x := List.inj_on_of_nodup_map hnd hyw hx hyid
    subst hyx
    have hst : y.status = WStatus.notified := by
      have := hyn
      unfold notifiedExpired at this
      exact of_decide_eq_true (Bool.and_elim_left this)
    constructor
    · simp [waitingFor, hst]
    · simp [hid, waitingFor]
  · left
    simp [hid]

/-- **C9.** One sweep of `expireOldOffers`: returns the number of `notified`
entries whose `expires_at` is before `now`; each such entry is transitioned
to `expired`; each `notified` entry whose offer has not expired is left
unchanged; and for each activity with an expired entry, the lowest-position
`waiting` entry (if any) is promoted to `notified` within the same sweep. -/
theorem expireOldOffers_sweep (db : DB) (now : Int)
    (hnd : (db.waitlist.map (fun e => e.id)).Nodup) :
    ((expireOldOffers db now).2 =
      (db.waitlist.filter (notifiedExpired now)).length) ∧
    (∀ e ∈ db.waitlist, e.status = .notified →
      ∀ t, e.expires_at = some t → t < now →
      { e with status := WStatus.expired } ∈ (expireOldOffers db now).1.waitlist) ∧
    (∀ e ∈ db.waitlist, e.status = .notified →
      ¬ offerExpired e.expires_at now = true →
      e ∈ (expireOldOffers db now).1.waitlist) ∧
    (∀ a e', (∃ x ∈ db.waitlist, notifiedExpired now x = true ∧ x.activity_id = a) →
      selectMinPos (db.waitlist.filter (waitingFor a)) = some e' →
      promoteEntry now e' ∈ (expireOldOffers db now).1.waitlist) := by
  by_cases hE : (db.waitlist.filter (notifiedExpired now)).isEmpty = true
  · -- no expired offers: the sweep is a no-op returning 0
    have hnil : db.waitlist.filter (notifiedExpired now) = [] :=
      List.isEmpty_iff.mp hE
    have hres : expireOldOffers db now = (db, 0) := by
      unfold expireOldOffers
      rw [if_pos hE]
    refine ⟨?_, ?_, ?_, ?_⟩
    · rw [hres, hnil]
      rfl
    · intro e he hst t ht htlt
      exfalso
      have hcond : notifiedExpired now e = true := by
        unfold notifiedExpired offerExpired
        rw [hst, ht]
        simp [htlt]
      have : e ∈ db.waitlist.filter (notifiedExpired now) :=
        List.mem_filter.mpr ⟨he, hcond⟩
      rw [hnil] at this
      exact List.not_mem_nil _ this
    · intro e he _ _
      rw [hres]
      exact he
    · intro a e' ⟨x, hx, hxc, _⟩ _
      exfalso
      have : x ∈ db.waitlist.filter (notifiedExpired now) :=
        List.mem_filter.mpr ⟨hx, hxc⟩
      rw [hnil] at this
      exact List.not_mem_nil _ this
  · -- some offers expired
    have heq := expireOldOffers_eq db now hE
    have hndm : ((sweepMarked db now).waitlist.map (fun e => e.id)).Nodup := by
      rw [sweepMarked_ids]
      exact hnd
    refine ⟨?_, ?_, ?_, ?_⟩
    · rw [heq]
    · intro e he hst t ht htlt
      rw [heq]
      have hcond : notifiedExpired now e = true := by
        unfold notifiedExpired offerExpired
        rw [hst, ht]
        simp [htlt]
      have hmemE : e ∈ db.waitlist.filter (notifiedExpired now) :=
        List.mem_filter.mpr ⟨he, hcond⟩
      have hidE : e.id ∈ (db.waitlist.filter (notifiedExpired now)).map (·.id) :=
        List.mem_map_of_mem _ hmemE
      have hmarked : { e with status := WStatus.expired } ∈
          (sweepMarked db now).waitlist := by
        unfold sweepMarked
        have := List.mem_map_of_mem (fun x =>
          if (decide (x.id ∈ (db.waitlist.filter (notifiedExpired now)).map (·.id))) then
            { x with status := WStatus.expired } else x) he
        simp only [decide_eq_true_eq] at this ⊢
        rw [if_pos hidE] at this
        exact this
      exact foldl_pwStep_preserves_nonwaiting now _ _ _ hndm hmarked (by simp)
    · intro e he hst hnexp
      rw [heq]
      have hidE : ¬ e.id ∈ (db.waitlist.filter (notifiedExpired now)).map (·.id) := by
        intro hcontra
        rcases List.mem_map.mp hcontra with ⟨y, hy, hyid⟩
        have hyw : y ∈ db.waitlist := (List.mem_filter.mp hy).1
        have hyx : y = e := List.inj_on_of_nodup_map hnd hyw he hyid
        subst hyx
        have := (List.mem_filter.mp hy).2
        unfold notifiedExpired at this
        exact hnexp (Bool.and_elim_right this)
      have hmarked : e ∈ (sweepMarked db now).waitlist := by
        unfold sweepMarked
        have := List.mem_map_of_mem (fun x =>
          if (decide (x.id ∈ (db.waitlist.filter (notifiedExpired now)).map (·.id))) then
            { x with status := WStatus.expired } else x) he
        simp only [decide_eq_true_eq] at this ⊢
        rw [if_neg hidE] at this
        exact this
      exact foldl_pwStep_preserves_nonwaiting now _ _ _ hndm hmarked
        (by rw [hst]; simp)
    · intro a e' ⟨x, hx, hxc, hxa⟩ hsel
      rw [heq]
      have hmemE : x ∈ db.waitlist.filter (notifiedExpired now) :=
        List.mem_filter.mpr ⟨hx, hxc⟩
      have hmemA : a ∈ (db.waitlist.filter (notifiedExpired now)).map
          (fun e => e.activity_id) := by
        rcases hxa with rfl
        exact List.mem_map_of_mem _ hmemE
      have hsel' : selectMinPos ((sweepMarked db now).waitlist.filter (waitingFor a)) =
          some e' := by
        rw [sweepMarked_filter_waiting db now a hnd]
        exact hsel
      exact foldl_pwStep_promotes now _ _ a e' (uniqueFirst_nodup _)
        ((mem_uniqueFirst _ _).mpr hmemA) hndm hsel'

/-- Concrete store for the C9 witness: activity 7 has an expired offer
(entry 1, `expires_at = 50 < now = 100`) and a waiting entry (entry 2);
activity 8 has an unexpired offer (entry 3, `expires_at = 500`). -/
def c9DB : DB :=
  ⟨[], [], [⟨1, 7, 20, 1, .notified, some 0, some 50⟩,
            ⟨2, 7, 21, 2, .waiting, none, none⟩,
            ⟨3, 8, 22, 1, .notified, some 0, some 500⟩], [], 0, 0⟩

/-- Witness for C9: at `c9DB` with `now = 100`, the sweep returns 1, expires
entry 1, leaves entry 3 unchanged, and promotes entry 2 in the same sweep. -/
theorem expireOldOffers_sweep_witness :
    (c9DB.waitlist.map (fun e => e.id)).Nodup ∧
    (expireOldOffers c9DB 100).2 = 1 ∧
    ({ (⟨1, 7, 20, 1, .notified, some 0, some 50⟩ : WaitlistEntry) with
        status := WStatus.expired } ∈ (expireOldOffers c9DB 100).1.waitlist) ∧
    ((⟨3, 8, 22, 1, .notified, some 0, some 500⟩ : WaitlistEntry) ∈
      (expireOldOffers c9DB 100).1.waitlist) ∧
    promoteEntry 100 ⟨2, 7, 21, 2, .waiting, none, none⟩ ∈
      (expireOldOffers c9DB 100).1.waitlist := by
  have hnd : (c9DB.waitlist.map (fun e => e.id)).Nodup := by decide
  have H := expireOldOffers_sweep c9DB 100 hnd
  refine ⟨hnd, ?_, ?_, ?_, ?_⟩
  · rw [H.1]
    decide
  · exact H.2.1 ⟨1, 7, 20, 1, .notified, some 0, some 50⟩ (by decide) rfl 50 rfl
      (by decide)
  · exact H.2.2.1 ⟨3, 8, 22, 1, .notified, some 0, some 500⟩ (by decide) rfl
      (by decide)
  · exact H.2.2.2 7 ⟨2, 7, 21, 2, .waiting, none, none⟩
      ⟨⟨1, 7, 20, 1, .notified, some 0, some 50⟩, by decide, by decide, rfl⟩
      (by decide)

/-! ## Accept-offer properties -/

/-- A status-mark update by id preserves the waitlist id sequence. -/
theorem mark_ids (l : List WaitlistEntry) (wid : Nat) (st : WStatus) :
    (l.map fun x => if x.id = wid then { x with status := st } else x).map
      (fun e => e.id) = l.map (fun e => e.id) := by
  simp only [List.map_map]
  apply List.map_congr_left
  intro x _
  by_cases h : x.id = wid <;> simp [h]

/-- With distinct ids, marking a non-`waiting` entry with a non-`waiting`
status does not change any activity's waiting queue. -/
theorem mark_filter_waiting {db : DB} {wid : Nat} {st : WStatus}
    {e : WaitlistEntry} (hnd : (db.waitlist.map (fun x => x.id)).Nodup)
    (he : e ∈ db.waitlist) (heid : e.id = wid) (hens : ¬ e.status = .waiting)
    (hstw : ¬ st = .waiting) (a : Nat) :
    (db.waitlist.map fun x =>
        if x.id = wid then { x with status := st } else x).filter (waitingFor a) =
      db.waitlist.filter (waitingFor a) := by
  apply filter_map_eq_filter
  intro x hx
  by_cases hid : x.id = wid
  · right
    have hxe : x = e := List.inj_on_of_nodup_map hnd hx he (by rw [hid, heid])
    subst hxe
    refine ⟨?_, ?_⟩
    · simp only [waitingFor, decide_eq_false_iff_not]
      intro hc
      exact hens hc.2
    · simp only [if_pos hid, waitingFor, decide_eq_false_iff_not]
      intro hc
      exact hstw hc.2
  · left
    simp [hid]

/-- The entry selected by `processWaitlist` appears promoted in the result. -/
theorem processWaitlist_mem_promoted {d : DB} {a : Nat} {now : Int}
    {e' : WaitlistEntry}
    (h : selectMinPos (d.waitlist.filter (waitingFor a)) = some e') :
    promoteEntry now e' ∈ (processWaitlist d a now).1.waitlist := by
  unfold processWaitlist
  rw [h]
  have hm : e' ∈ d.waitlist := (List.mem_filter.mp (selectMinPos_mem h)).1
  have := List.mem_map_of_mem
    (fun y => if y.id = e'.id then promoteEntry now y else y) hm
  simpa using this

/-- **C3 (amended).** `acceptWaitlistOffer` succeeds only when the entry's
status is exactly `notified`, the offer is not expired — the code's test is
`expires_at < now`, so an accept at `now = expires_at` still succeeds, i.e.
success requires `now ≤ expires_at` rather than `now < expires_at` — and the
activity is not cancelled; an expired offer is marked `expired`, Promote is
re-run for the next waiting entry, and the accept fails; a cancelled
activity fails the accept with the store unchanged (no booking); on success
a `confirmed` booking for (activity, participant) is inserted,
`current_bookings` is incremented, and the entry is marked `accepted`. -/
theorem acceptWaitlistOffer_spec (db : DB) (wid actor : Nat) (now : Int)
    (hnd : (db.waitlist.map (fun x => x.id)).Nodup) :
    (db.waitlist.find? (fun x => decide (x.id = wid)) = none →
      acceptWaitlistOffer db wid actor now =
        (db, ⟨false, none, some "Waitlist entry not found"⟩)) ∧
    (∀ e, db.waitlist.find? (fun x => decide (x.id = wid)) = some e →
      (¬ e.status = .notified →
        acceptWaitlistOffer db wid actor now =
          (db, ⟨false, none, some "No active offer for this waitlist entry"⟩)) ∧
      (e.status = .notified → offerExpired e.expires_at now = true →
        (acceptWaitlistOffer db wid actor now).2 =
          ⟨false, none, some "Offer has expired"⟩ ∧
        { e with status := WStatus.expired } ∈
          (acceptWaitlistOffer db wid actor now).1.waitlist ∧
        (∀ e', selectMinPos (db.waitlist.filter (waitingFor e.activity_id)) =
            some e' →
          promoteEntry now e' ∈ (acceptWaitlistOffer db wid actor now).1.waitlist)) ∧
      (∀ a, db.activities.find? (fun x => decide (x.id = e.activity_id)) = some a →
        e.status = .notified → offerExpired e.expires_at now = false →
        (a.is_cancelled = true →
          acceptWaitlistOffer db wid actor now =
            (db, ⟨false, none, some "Activity has been cancelled"⟩)) ∧
        (a.is_cancelled = false →
          (db.bookings.any fun b => decide (b.activity_id = e.activity_id ∧
            b.participant_id = e.participant_id)) = false →
          (acceptWaitlistOffer db wid actor now).2 =
            ⟨true, some db.nextBookingId, none⟩ ∧
          (acceptWaitlistOffer db wid actor now).1.bookings =
            db.bookings ++ [⟨db.nextBookingId, e.activity_id, e.participant_id,
              actor, .confirmed, none⟩] ∧
          (acceptWaitlistOffer db wid actor now).1.activities =
            (db.activities.map fun x => if x.id = e.activity_id then
              { x with current_bookings := a.current_bookings + 1 } else x) ∧
          (acceptWaitlistOffer db wid actor now).1.waitlist =
            (db.waitlist.map fun x => if x.id = wid then
              { x with status := WStatus.accepted } else x)))) ∧
    ((acceptWaitlistOffer db wid actor now).2.success = true →
      ∃ e, db.waitlist.find? (fun x => decide (x.id = wid)) = some e ∧
        e.status = .notified ∧ offerExpired e.expires_at now = false ∧
        (∀ t, e.expires_at = some t → now ≤ t) ∧
        ∃ a, db.activities.find? (fun x => decide (x.id = e.activity_id)) = some a ∧
          a.is_cancelled = false) := by
  refine ⟨?_, ?_, ?_⟩
  · intro h
    unfold acceptWaitlistOffer
    rw [h]
  · intro e hfind
    have heid : e.id = wid := by
      have := List.find?_some hfind
      simpa using this
    have hemem : e ∈ db.waitlist := List.mem_of_find?_eq_some hfind
    refine ⟨?_, ?_, ?_⟩
    · intro hns
      unfold acceptWaitlistOffer
      rw [hfind]
      dsimp only
      rw [if_pos hns]
    · intro hst hexp
      have hacc : acceptWaitlistOffer db wid actor now =
          ((processWaitlist { db with waitlist := db.waitlist.map fun x =>
              if x.id = wid then { x with status := .expired } else x }
            e.activity_id now).1,
           ⟨false, none, some "Offer has expired"⟩) := by
        unfold acceptWaitlistOffer
        rw [hfind]
        dsimp only
        rw [if_neg (not_not_intro hst), if_pos hexp]
      have hnd1 : (((db.waitlist.map fun x =>
          if x.id = wid then { x with status := WStatus.expired } else x).map
            (fun x => x.id)).Nodup) := by
        rw [mark_ids]
        exact hnd
      refine ⟨by rw [hacc], ?_, ?_⟩
      · rw [hacc]
        have hmarked : { e with status := WStatus.expired } ∈
            (db.waitlist.map fun x =>
              if x.id = wid then { x with status := WStatus.expired } else x) := by
          have := List.mem_map_of_mem (fun x =>
            if x.id = wid then { x with status := WStatus.expired } else x) hemem
          dsimp only at this
          rw [if_pos heid] at this
          exact this
        exact processWaitlist_preserves_nonwaiting hnd1 hmarked (by simp)
      · intro e' hsel
        rw [hacc]
        have hfw : ((db.waitlist.map fun x =>
            if x.id = wid then { x with status := WStatus.expired } else x).filter
              (waitingFor e.activity_id)) =
            db.waitlist.filter (waitingFor e.activity_id) :=
          mark_filter_waiting hnd hemem heid (by rw [hst]; simp) (by simp)
            e.activity_id
        exact processWaitlist_mem_promoted (by rw [hfw]; exact hsel)
    · intro a hfinda hst hnexp
      have hne : ¬ offerExpired e.expires_at now = true := by
        rw [hnexp]
        simp
      refine ⟨?_, ?_⟩
      · intro hcanc
        unfold acceptWaitlistOffer
        rw [hfind]
        dsimp only
        rw [if_neg (not_not_intro hst), if_neg hne, hfinda]
        dsimp only
        rw [if_pos hcanc]
      · intro hcanc hany
        have hacc : acceptWaitlistOffer db wid actor now =
            ({ db with
                bookings := db.bookings ++ [⟨db.nextBookingId, e.activity_id,
                  e.participant_id, actor, .confirmed, none⟩],
                nextBookingId := db.nextBookingId + 1,
                activities := db.activities.map fun x =>
                  if x.id = e.activity_id then
                    { x with current_bookings := a.current_bookings + 1 } else x,
                waitlist := db.waitlist.map fun x =>
                  if x.id = wid then { x with status := WStatus.accepted } else x },
             ⟨true, some db.nextBookingId, none⟩) := by
          unfold acceptWaitlistOffer
          rw [hfind]
          dsimp only
          rw [if_neg (not_not_intro hst), if_neg hne, hfinda]
          dsimp only
          rw [if_neg (by rw [hcanc]; simp : ¬ a.is_cancelled = true),
            if_neg (by rw [hany]; simp : ¬ (db.bookings.any fun b =>
              decide (b.activity_id = e.activity_id ∧
                b.participant_id = e.participant_id)) = true)]
        rw [hacc]
        exact ⟨rfl, rfl, rfl, rfl⟩
  · intro hsucc
    unfold acceptWaitlistOffer at hsucc
    cases hfind : db.waitlist.find? (fun x => decide (x.id = wid)) with
    | none =>
      rw [hfind] at hsucc
      simp at hsucc
    | some e =>
      rw [hfind] at hsucc
      dsimp only at hsucc
      by_cases hst : ¬ e.status = .notified
      · rw [if_pos hst] at hsucc
        simp at hsucc
      · rw [if_neg hst] at hsucc
        by_cases hexp : offerExpired e.expires_at now = true
        · rw [if_pos hexp] at hsucc
          simp at hsucc
        · rw [if_neg hexp] at hsucc
          cases hfinda : db.activities.find? (fun x => decide (x.id = e.activity_id)) with
          | none =>
            rw [hfinda] at hsucc
            simp at hsucc
          | some a =>
            rw [hfinda] at hsucc
            dsimp only at hsucc
            by_cases hcanc : a.is_cancelled = true
            · rw [if_pos hcanc] at hsucc
              simp at hsucc
            · rw [if_neg hcanc] at hsucc
              refine ⟨e, rfl, not_not.mp hst, Bool.not_eq_true _ ▸ hexp, ?_, a,
                hfinda, Bool.not_eq_true _ ▸ hcanc⟩
              intro t ht
              have : ¬ t < now := by
                intro hlt
                apply hexp
                unfold offerExpired
                rw [ht]
                simp [hlt]
              omega

/-- Concrete store for C3: one notified entry for activity 1, offer expiring
at exactly `t = 100`. -/
def c3DB : DB :=
  ⟨[⟨1, ⟨1000, 9, "monday"⟩, ⟨2000, 10, "monday"⟩, 5, 0, false, []⟩],
   [], [⟨1, 1, 10, 1, .notified, some 0, some 100⟩], [], 50, 2⟩

/-- **C3 (counterexample).** At `now = expires_at = 100` the accept
succeeds: the code's expiry test is `expires_at < now`, so the claim's
"succeeds only when `now < expires_at`" is false at this input
(`100 < 100` fails yet the accept succeeds). -/
theorem acceptOffer_succeeds_at_expiry_boundary :
    (c3DB.waitlist.find? fun x => decide (x.id = 1)) =
      some ⟨1, 1, 10, 1, .notified, some 0, some 100⟩ ∧
    (acceptWaitlistOffer c3DB 1 9 100).2.success = true ∧
    ¬ ((100 : Int) < 100) := by
  decide

/-- Witness for C3: the hypotheses of the amended theorem hold at `c3DB`,
and the success-necessary-conditions clause applies to its successful
accept. -/
theorem acceptWaitlistOffer_spec_witness :
    (c3DB.waitlist.map (fun x => x.id)).Nodup ∧
    (acceptWaitlistOffer c3DB 1 9 100).2.success = true ∧
    (∃ e, c3DB.waitlist.find? (fun x => decide (x.id = 1)) = some e ∧
      e.status = .notified ∧ offerExpired e.expires_at 100 = false ∧
      (∀ t, e.expires_at = some t → (100 : Int) ≤ t) ∧
      ∃ a, c3DB.activities.find? (fun x => decide (x.id = e.activity_id)) = some a ∧
        a.is_cancelled = false) :=
  have hnd : (c3DB.waitlist.map (fun x => x.id)).Nodup := by decide
  have hsucc : (acceptWaitlistOffer c3DB 1 9 100).2.success = true := by decide
  ⟨hnd, hsucc, (acceptWaitlistOffer_spec c3DB 1 9 100 hnd).2.2 hsucc⟩

/-- Concrete store for C1: activity 1 is at capacity
(`capacity = current_bookings = 1`) while entry 1 holds an unexpired offer. -/
def c1FullDB : DB :=
  ⟨[⟨1, ⟨5000, 9, "monday"⟩, ⟨6000, 10, "monday"⟩, 1, 1, false, []⟩],
   [], [⟨1, 1, 10, 1, .notified, some 0, some 900⟩], [⟨3, 30⟩], 50, 2⟩

/-- **C1.** `createBooking` respects capacity — at a full activity it
waitlists (position 2) and leaves `current_bookings` untouched — but
`acceptWaitlistOffer` checks only cancellation (despite its "still has
space" comment) and increments unconditionally: accepting the outstanding
offer at the full activity succeeds and drives `current_bookings` to 2 while
`capacity = 1`, violating the capacity invariant. -/
theorem capacity_invariant_violated_by_accept :
    ((c1FullDB.activities.find? fun a => decide (a.id = 1)).map
        (fun a => (a.capacity, a.current_bookings)) = some (1, 1)) ∧
    ((createBooking c1FullDB 1 3 99 100).2 = .waitlisted 2 ∧
     (createBooking c1FullDB 1 3 99 100).1.activities = c1FullDB.activities ∧
     (createBooking c1FullDB 1 3 99 100).1.bookings = c1FullDB.bookings) ∧
    ((acceptWaitlistOffer c1FullDB 1 9 100).2.success = true ∧
     ((acceptWaitlistOffer c1FullDB 1 9 100).1.activities.find? fun a =>
        decide (a.id = 1)).map (fun a => a.current_bookings) = some 2 ∧
     (1 : Nat) < 2) := by
  decide

/-- Concrete store for C4: participant 10 holds a `cancelled` booking row
for activity 1, which has free capacity; participant 10 has no confirmed
bookings, so no time conflict. -/
def c4DB : DB :=
  ⟨[⟨1, ⟨5000, 9, "monday"⟩, ⟨6000, 10, "monday"⟩, 5, 0, false, []⟩],
   [⟨7, 1, 10, 3, .cancelled, some 10⟩],
   [], [⟨10, 30⟩], 50, 1⟩

/-- The same store with the stale cancelled row dropped. -/
def c4DBClean : DB :=
  ⟨[⟨1, ⟨5000, 9, "monday"⟩, ⟨6000, 10, "monday"⟩, 5, 0, false, []⟩],
   [], [], [⟨10, 30⟩], 50, 1⟩

/-- **C4.** Re-registration after cancellation proceeds past the
already-registered check, but the route then *inserts a new row* rather
than reusing the cancelled one; under the store's pair-uniqueness
constraint (modelled from the spec) the insert fails with the
duplicate-key branch and the call returns ALREADY_REGISTERED with the
store unchanged — no confirmed booking results.  Dropping the cancelled
row makes the identical call succeed, isolating the stale row as the
cause. -/
theorem rebooking_after_cancel_hits_unique_constraint :
    ((c4DB.bookings.find? fun b =>
        decide (b.activity_id = 1 ∧ b.participant_id = 10)).map
          (fun b => b.status) = some .cancelled) ∧
    (createBooking c4DB 1 10 99 100).2 = .alreadyRegistered ∧
    (createBooking c4DB 1 10 99 100).1 = c4DB ∧
    (createBooking c4DBClean 1 10 99 100).2 = .confirmed 50 := by
  decide

/-- The accept route's response as a function of the accept result. -/
def routeOf (dbres : DB × AcceptResult) : DB × AcceptRouteResult :=
  if dbres.2.success then (dbres.1, .ok dbres.2.bookingId)
  else (dbres.1, .waitlistError (dbres.2.error.getD "Failed to accept offer"))

theorem acceptRoute_eq (db : DB) (u : AuthUser) (wid : Nat) (now : Int) :
    acceptRoute db (some u) wid now =
      routeOf (acceptWaitlistOffer db wid u.userId now) := rfl

/-- **C10 (amended).** In a well-formed store (every waitlist entry's
activity exists), `acceptWaitlistOffer` fails only with NOT_FOUND,
offer-not-active, offer-expired, activity-cancelled, or — a fifth kind the
claim omits — the booking-insert failure "Failed to create booking" (the
store's pair-uniqueness rejection); the outcome is independent of the
acting user, and the route never returns an authorization failure for any
authenticated caller: any authenticated user can accept any notified
entry. -/
theorem acceptOffer_failure_kinds_no_authz (db : DB) (wid : Nat) (now : Int)
    (hwf : ∀ e ∈ db.waitlist, ∃ a ∈ db.activities, a.id = e.activity_id) :
    (∀ actor, (acceptWaitlistOffer db wid actor now).2.success = false →
      (acceptWaitlistOffer db wid actor now).2.error ∈
        [some "Waitlist entry not found",
         some "No active offer for this waitlist entry",
         some "Offer has expired",
         some "Activity has been cancelled",
         some "Failed to create booking"]) ∧
    (∀ actor actor',
      (acceptWaitlistOffer db wid actor now).2 =
        (acceptWaitlistOffer db wid actor' now).2) ∧
    (∀ u : AuthUser, ¬ (acceptRoute db (some u) wid now).2 =
      AcceptRouteResult.unauthorized) ∧
    (∀ u u' : AuthUser,
      (acceptRoute db (some u) wid now).2 =
        (acceptRoute db (some u') wid now).2) := by
  have key : ∀ actor actor',
      (acceptWaitlistOffer db wid actor now).2 =
        (acceptWaitlistOffer db wid actor' now).2 := by
    intro actor actor'
    unfold acceptWaitlistOffer
    cases hfind : db.waitlist.find? (fun x => decide (x.id = wid)) with
    | none => rfl
    | some e =>
      dsimp only
      by_cases hst : ¬ e.status = .notified
      · simp only [if_pos hst]
      · simp only [if_neg hst]
        by_cases hexp : offerExpired e.expires_at now = true
        · simp only [if_pos hexp]
        · simp only [if_neg hexp]
          cases hfinda : db.activities.find? (fun x => decide (x.id = e.activity_id)) with
          | none => rfl
          | some a =>
            dsimp only
            by_cases hcanc : a.is_cancelled = true
            · simp only [if_pos hcanc]
            · simp only [if_neg hcanc]
              by_cases hany : (db.bookings.any fun b =>
                  decide (b.activity_id = e.activity_id ∧
                    b.participant_id = e.participant_id)) = true
              · simp only [if_pos hany]
              · simp only [if_neg hany]
  refine ⟨?_, key, ?_, ?_⟩
  · intro actor hfail
    unfold acceptWaitlistOffer at hfail ⊢
    cases hfind : db.waitlist.find? (fun x => decide (x.id = wid)) with
    | none =>
      simp
    | some e =>
      rw [hfind] at hfail
      dsimp only at hfail ⊢
      by_cases hst : ¬ e.status = .notified
      · simp only [if_pos hst]
        simp
      · rw [if_neg hst] at hfail
        simp only [if_neg hst]
        by_cases hexp : offerExpired e.expires_at now = true
        · simp only [if_pos hexp]
          simp
        · rw [if_neg hexp] at hfail
          simp only [if_neg hexp]
          cases hfinda : db.activities.find? (fun x => decide (x.id = e.activity_id)) with
          | none =>
            exfalso
            have hemem : e ∈ db.waitlist := List.mem_of_find?_eq_some hfind
            obtain ⟨a, ha, haid⟩ := hwf e hemem
            have := List.find?_eq_none.mp hfinda a ha
            simp [haid] at this
          | some a =>
            rw [hfinda] at hfail
            dsimp only at hfail ⊢
            by_cases hcanc : a.is_cancelled = true
            · simp only [if_pos hcanc]
              simp
            · rw [if_neg hcanc] at hfail
              simp only [if_neg hcanc]
              by_cases hany : (db.bookings.any fun b =>
                  decide (b.activity_id = e.activity_id ∧
                    b.participant_id = e.participant_id)) = true
              · simp only [if_pos hany]
                simp
              · rw [if_neg hany] at hfail
                simp at hfail
  · intro u
    rw [acceptRoute_eq]
    unfold routeOf
    by_cases hs : (acceptWaitlistOffer db wid u.userId now).2.success = true
    · rw [if_pos hs]
      simp
    · rw [if_neg hs]
      simp
  · intro u u'
    rw [acceptRoute_eq, acceptRoute_eq]
    unfold routeOf
    rw [key u.userId u'.userId]
    by_cases hs : (acceptWaitlistOffer db wid u'.userId now).2.success = true
    · rw [if_pos hs, if_pos hs]
    · rw [if_neg hs, if_neg hs]

/-- Concrete store for C10: entry 1 holds an unexpired offer for
(activity 1, participant 10), the activity is live, but a `confirmed`
booking row for the same pair already exists (the participant booked
directly while the offer was outstanding). -/
def c10DB : DB :=
  ⟨[⟨1, ⟨5000, 9, "monday"⟩, ⟨6000, 10, "monday"⟩, 5, 1, false, []⟩],
   [⟨7, 1, 10, 3, .confirmed, none⟩],
   [⟨1, 1, 10, 1, .notified, some 0, some 99999⟩], [⟨10, 30⟩], 50, 2⟩

/-- **C10 (counterexample).** A reachable accept fails with a fifth kind,
"Failed to create booking" (the booking insert collides with the store's
pair uniqueness), which is none of NOT_FOUND, offer-not-active,
offer-expired, activity-cancelled — refuting "fails only with" those four
kinds. -/
theorem acceptOffer_fifth_failure_kind :
    (acceptWaitlistOffer c10DB 1 9 100).2 =
      ⟨false, none, some "Failed to create booking"⟩ ∧
    ¬ ((some "Failed to create booking" : Option String) =
        some "Waitlist entry not found" ∨
      (some "Failed to create booking" : Option String) =
        some "No active offer for this waitlist entry" ∨
      (some "Failed to create booking" : Option String) =
        some "Offer has expired" ∨
      (some "Failed to create booking" : Option String) =
        some "Activity has been cancelled") := by
  decide

/-- Witness for C10: the well-formedness hypothesis holds at `c10DB`; the
failing accept's error is among the five kinds, and the route outcome is
identical for two different authenticated users (no authorization check). -/
theorem acceptOffer_failure_kinds_no_authz_witness :
    (∀ e ∈ c10DB.waitlist, ∃ a ∈ c10DB.activities, a.id = e.activity_id) ∧
    ((acceptWaitlistOffer c10DB 1 9 100).2.error ∈
      [some "Waitlist entry not found",
       some "No active offer for this waitlist entry",
       some "Offer has expired",
       some "Activity has been cancelled",
       some "Failed to create booking"]) ∧
    ¬ (acceptRoute c10DB (some ⟨9, "participant"⟩) 1 100).2 =
      AcceptRouteResult.unauthorized ∧
    (acceptRoute c10DB (some ⟨9, "participant"⟩) 1 100).2 =
      (acceptRoute c10DB (some ⟨42, "staff"⟩) 1 100).2 :=
  have hwf : ∀ e ∈ c10DB.waitlist, ∃ a ∈ c10DB.activities, a.id = e.activity_id := by
    decide
  have H := acceptOffer_failure_kinds_no_authz c10DB 1 100 hwf
  ⟨hwf, H.1 9 (by decide), H.2.2.1 ⟨9, "participant"⟩,
    H.2.2.2 ⟨9, "participant"⟩ ⟨42, "staff"⟩⟩
